import Mathlib

/-!
# Verification of the neonforge-file-server delivery queue and origin registry

Shallow embedding of the core of the repository:

* `backend/src/emailService.ts` — the `EmailService` class: the in-memory
  email job queue (`queueEmail`, `processQueue`, `getQueueStatus`,
  `getJobStatus`) and the 24-hour cleanup filter inside `processQueue`.
* the Express server file — the origin alias registry (`getOriginAlias`
  over a `Map` plus a `nextAliasIndex` counter) and the
  `POST /api/email/send` route handler that validates input before
  calling `EmailService.queueEmail`.

Conventions of the embedding:

* JS `Date` timestamps become `Int` (milliseconds since epoch).
* The nondeterministic parts of `queueEmail` (the generated job id, the
  current time) become explicit parameters.
* The SMTP transport (`sendEmail`) is an external effect; a worker cycle
  is parametrised by an oracle `deliver : EmailJob → Bool` saying whether
  the transport attempt for a given job succeeds (`true`) or throws
  (`false`), exactly the success/failure contract the code consumes.
* The `isProcessing` flag only prevents overlapping timer callbacks; a
  single completed cycle is the pure function `processQueue` below.
-/

/-- Job status, from the `EmailJob` interface in `emailService.ts`:
`'pending' | 'sending' | 'sent' | 'failed'`. -/
inductive JobStatus where
  | pending
  | sending
  | sent
  | failed
deriving DecidableEq, Repr

/-- One email job, from the `EmailJob` interface in `emailService.ts`.
`timestamp` is the JS `Date` as milliseconds. -/
structure EmailJob where
  id : String
  email : String
  filename : String
  filePath : String
  timestamp : Int
  status : JobStatus
  retryCount : Nat
deriving DecidableEq, Repr

/-- Embeds `EmailService.queueEmail`: builds the job record with status
`'pending'` and `retryCount 0` and pushes it onto `emailQueue`, returning
the job id.  The generated id and `Date.now()` are passed in explicitly. -/
def queueEmail (email filename filePath jobId : String) (now : Int)
    (emailQueue : List EmailJob) : String × List EmailJob :=
  let emailJob : EmailJob :=
    { id := jobId
      email := email
      filename := filename
      filePath := filePath
      timestamp := now
      status := .pending
      retryCount := 0 }
  (jobId, emailQueue ++ [emailJob])

/-- Milliseconds in 24 hours, from `24 * 60 * 60 * 1000` in
`processQueue`. -/
def msPerDay : Int := 24 * 60 * 60 * 1000

/-- The body of the `for` loop of `EmailService.processQueue` for one job:
a pending job is set to `'sending'`, the transport is attempted, and the
outcome is recorded (`'sent'` on success; on failure `retryCount++`, then
`'failed'` if `retryCount >= 3`, else back to `'pending'`).  Jobs whose
status is not `'pending'` are not in the `pendingJobs` set and are left
alone. -/
def processJob (deliver : EmailJob → Bool) (job : EmailJob) : EmailJob :=
  if job.status = .pending then
    let claimed := { job with status := JobStatus.sending }
    if deliver claimed then
      { claimed with status := JobStatus.sent }
    else
      let retried := claimed.retryCount + 1
      if 3 ≤ retried then
        { claimed with retryCount := retried, status := JobStatus.failed }
      else
        { claimed with retryCount := retried, status := JobStatus.pending }
  else
    job

/-- The cleanup step at the end of `EmailService.processQueue`:
`this.emailQueue = this.emailQueue.filter(job => job.timestamp > cutoffTime)`
with `cutoffTime = Date.now() - 24*60*60*1000`. -/
def pruneQueue (now : Int) (emailQueue : List EmailJob) : List EmailJob :=
  emailQueue.filter (fun job => now - msPerDay < job.timestamp)

/-- One completed cycle of `EmailService.processQueue`: every job that was
`'pending'` at the start of the cycle is attempted (the jobs are
independent, so the sequential in-place loop is a map), then jobs older
than 24 hours are pruned. -/
def processQueue (deliver : EmailJob → Bool) (now : Int)
    (emailQueue : List EmailJob) : List EmailJob :=
  pruneQueue now (emailQueue.map (processJob deliver))

/-- Result record of `EmailService.getQueueStatus`. -/
structure QueueStatus where
  total : Nat
  pending : Nat
  sending : Nat
  sent : Nat
  failed : Nat
deriving DecidableEq, Repr

/-- Embeds `EmailService.getQueueStatus`: the queue length plus one
`filter(...).length` per status. -/
def getQueueStatus (emailQueue : List EmailJob) : QueueStatus :=
  { total := emailQueue.length
    pending := (emailQueue.filter (fun job => job.status = .pending)).length
    sending := (emailQueue.filter (fun job => job.status = .sending)).length
    sent := (emailQueue.filter (fun job => job.status = .sent)).length
    failed := (emailQueue.filter (fun job => job.status = .failed)).length }

/-- Embeds `EmailService.getJobStatus`: `emailQueue.find(job => job.id === jobId) || null`. -/
def getJobStatus (jobId : String) (emailQueue : List EmailJob) :
    Option EmailJob :=
  emailQueue.find? (fun job => job.id = jobId)

/-- The state the `EmailService` constructor builds: `emailQueue = []`.
The constructor reads nothing from disk, so whatever job list may sit in
a persisted snapshot (the `persisted` argument) plays no role in the
state the restarted service starts from. -/
def restartService (_persisted : List EmailJob) : List EmailJob :=
  []

/-- The job-store file on stable storage, paired with the in-memory
queue.  `none` means no job file exists on disk.  `emailService.ts`
performs no filesystem write anywhere (its only `fs` uses are the
read-only `existsSync`/`statSync` inside `sendEmail`), so every queue
mutation leaves the storage component exactly as it was. -/
def queueEmailFS (email filename filePath jobId : String) (now : Int)
    (state : List EmailJob × Option (List EmailJob)) :
    String × (List EmailJob × Option (List EmailJob)) :=
  let (returnedId, queue) := queueEmail email filename filePath jobId now state.1
  (returnedId, (queue, state.2))

/-- Errors surfaced by the `POST /api/email/send` route handler:
`res.status(400).json({error})` for malformed input and
`res.status(404).json({error})` for a missing file. -/
inductive ApiError where
  | validationError (msg : String)
  | notFound (msg : String)
deriving DecidableEq, Repr

/-- A character of the class `[^\s@]` of the route's email regex: neither
whitespace nor `'@'`. -/
def emailCharOk (c : Char) : Bool :=
  !c.isWhitespace && c ≠ '@'

/-- The test `/^[^\s@]+@[^\s@]+\.[^\s@]+$/.test(email)` of the route
handler.  The anchored regex accepts exactly the strings of the form
`A@B.C` with `A`, `B`, `C` nonempty words over `[^\s@]`: exactly one
`'@'`; a nonempty local part; and a domain part whose characters are all
in the class and which has a `'.'` at some interior position (the part
before that dot is `B`, the rest is `C`; both may themselves contain
further dots, as `[^\s@]` includes `'.'`).  `splitAtChar` cuts a
character list at every occurrence of the separator. -/
def splitAtChar (sep : Char) : List Char → List (List Char)
  | [] => [[]]
  | c :: cs =>
    match splitAtChar sep cs with
    | [] => [[]]
    | cur :: rest => if c = sep then [] :: cur :: rest else (c :: cur) :: rest

def emailRegexTest (s : String) : Bool :=
  match splitAtChar '@' s.toList with
  | [localPart, domainPart] =>
      !localPart.isEmpty && localPart.all emailCharOk &&
      !domainPart.isEmpty && domainPart.all emailCharOk &&
      ((domainPart.drop 1).dropLast.contains '.')
  | _ => false

/-- The `POST /api/email/send` route handler, up to the HTTP encoding:
reject when `email` or `filename` is empty (JS falsiness of the empty
string in `if (!email || !filename)`), then when the email regex fails,
then when `fs.existsSync(path.join(uploadsDir, filename))` is false;
otherwise call `emailService.queueEmail(email, filename, filePath)` and
answer with the job id.  `fileExists` stands for the state of the uploads
directory.  The result pairs the HTTP answer with the email queue after
the request: on every error branch the handler returns before touching
the service, so the queue comes back unchanged. -/
def postEmailSend (email filename : String) (fileExists : String → Bool)
    (jobId : String) (now : Int) (emailQueue : List EmailJob) :
    Except ApiError String × List EmailJob :=
  if email = "" || filename = "" then
    (.error (.validationError "Email and filename are required"), emailQueue)
  else if !emailRegexTest email then
    (.error (.validationError "Invalid email format"), emailQueue)
  else if !fileExists ("uploads/" ++ filename) then
    (.error (.notFound "File not found"), emailQueue)
  else
    let (returnedId, queue) :=
      queueEmail email filename ("uploads/" ++ filename) jobId now emailQueue
    (.ok returnedId, queue)

/-- The origin alias registry of the server file: the
`originAliases = new Map<string, string>()` (kept here as an assoc list
in insertion order, which is how a JS `Map` iterates) together with the
counter `let nextAliasIndex = 1`. -/
structure OriginRegistry where
  originAliases : List (String × String)
  nextAliasIndex : Nat
deriving DecidableEq, Repr

/-- The registry at server start: empty map, counter at 1. -/
def freshRegistry : OriginRegistry :=
  { originAliases := [], nextAliasIndex := 1 }

/-- Embeds `getOriginAlias(ipAddress)`: if the map has no entry for the address,
allocate `` `H${nextAliasIndex}` ``, record it and bump the counter; then
return the mapped alias. -/
def getOriginAlias (ipAddress : String) (r : OriginRegistry) :
    String × OriginRegistry :=
  match r.originAliases.find? (fun e => e.1 = ipAddress) with
  | some e => (e.2, r)
  | none =>
      let assigned := "H" ++ toString r.nextAliasIndex
      (assigned,
       { originAliases := r.originAliases ++ [(ipAddress, assigned)]
         nextAliasIndex := r.nextAliasIndex + 1 })

/-- Running a sequence of `getOriginAlias` calls against a fresh
registry, keeping only the final registry state. -/
def registerAll (ips : List String) : OriginRegistry :=
  ips.foldl (fun r ip => (getOriginAlias ip r).2) freshRegistry

/-- The distinct addresses of a request sequence, in order of first
occurrence: the Nth element is the Nth distinct address to register. -/
def firstOccurrences (ips : List String) : List String :=
  ips.foldl (fun seen ip => if ip ∈ seen then seen else seen ++ [ip]) []

example :
    (queueEmail "a@b.com" "f.png" "/up/f.png" "j1" 5 []).2 =
      [{ id := "j1", email := "a@b.com", filename := "f.png",
         filePath := "/up/f.png", timestamp := 5, status := .pending,
         retryCount := 0 }] := by
  rfl

example :
    processQueue (fun _ => false) 6
      (queueEmail "a@b.com" "f.png" "/up/f.png" "j1" 5 []).2 =
      [{ id := "j1", email := "a@b.com", filename := "f.png",
         filePath := "/up/f.png", timestamp := 5, status := .pending,
         retryCount := 1 }] := by
  decide

example : emailRegexTest "a@b.com" = true := by decide
example : emailRegexTest "a@bcom" = false := by decide
example : emailRegexTest "" = false := by decide
example : emailRegexTest "a@.b.c" = true := by decide
example : emailRegexTest "a@b." = false := by decide
example : emailRegexTest "a b@c.d" = false := by decide
example : emailRegexTest "a@b@c.d" = false := by decide

example :
    (getOriginAlias "10.0.0.5" freshRegistry).1 = "H1" := by decide

example :
    (getOriginAlias "10.0.0.6"
      (getOriginAlias "10.0.0.5" freshRegistry).2).1 = "H2" := by decide

example :
    (registerAll ["a", "b", "a", "c"]).originAliases =
      [("a", "H1"), ("b", "H2"), ("c", "H3")] := by decide

example : firstOccurrences ["a", "b", "a", "c"] = ["a", "b", "c"] := by
  decide

/-! ## Helper lemmas about a single worker cycle -/

/-- A worker attempt never decreases a job's `retryCount`. -/
theorem processJob_retryCount_le (deliver : EmailJob → Bool) (job : EmailJob) :
    job.retryCount ≤ (processJob deliver job).retryCount := by
  unfold processJob
  by_cases hp : job.status = .pending
  · simp only [hp, if_true]
    by_cases hd : deliver { job with status := JobStatus.sending }
    · simp [hd]
    · simp only [hd, Bool.false_eq_true, if_false]
      split <;> simp [Nat.le_succ]
  · simp [hp]

/-- A worker attempt leaves a terminal (`sent` or `failed`) job exactly
as it was: such jobs are not in the `pendingJobs` set. -/
theorem processJob_terminal (deliver : EmailJob → Bool) (job : EmailJob)
    (h : job.status = .sent ∨ job.status = .failed) :
    processJob deliver job = job := by
  unfold processJob
  rcases h with h | h <;> simp [h]

/-- A worker attempt never produces the `sending` status: a pending job
ends the attempt as `sent`, `failed` or `pending`, and other jobs are
untouched. -/
theorem processJob_status_ne_sending (deliver : EmailJob → Bool)
    (job : EmailJob) (h : job.status ≠ .sending) :
    (processJob deliver job).status ≠ .sending := by
  unfold processJob
  by_cases hp : job.status = .pending
  · simp only [hp, if_true]
    by_cases hd : deliver { job with status := JobStatus.sending }
    · simp [hd]
    · simp only [hd, Bool.false_eq_true, if_false]
      split <;> simp
  · simpa [hp] using h

/-- Every job surviving a cycle is the processed image of a job that was
in the queue when the cycle started. -/
theorem mem_processQueue (deliver : EmailJob → Bool) (now : Int)
    (q : List EmailJob) (j' : EmailJob) (h : j' ∈ processQueue deliver now q) :
    ∃ j ∈ q, j' = processJob deliver j := by
  unfold processQueue pruneQueue at h
  obtain ⟨j, hj, hji⟩ := List.mem_map.mp (List.mem_filter.mp h).1
  exact ⟨j, hj, hji.symm⟩

/-- A concrete job used by witnesses below. -/
def demoJob : EmailJob :=
  { id := "j1", email := "a@b.com", filename := "f.png",
    filePath := "uploads/f.png", timestamp := 0, status := .pending,
    retryCount := 0 }

/-! ## C10 -/

/-- C10: for every queue state, `getQueueStatus` returns a `total` equal
to the sum of its four per-status counts, because every job's status is
one of `pending`, `sending`, `sent`, `failed`. -/
theorem C10_summary_total_eq_sum (q : List EmailJob) :
    (getQueueStatus q).total =
      (getQueueStatus q).pending + (getQueueStatus q).sending +
        (getQueueStatus q).sent + (getQueueStatus q).failed := by
  simp only [getQueueStatus]
  induction q with
  | nil => rfl
  | cons j q ih =>
    simp only [List.length_cons, List.filter_cons]
    cases hs : j.status <;> simp <;> omega

/-! ## C9 -/

/-- C9: a completed worker cycle leaves no job in the `sending`
(`in_progress`) state: starting from any queue without `sending` jobs,
every job the cycle claimed as `sending` ends the cycle as `sent`,
`failed` or `pending`, so the resulting queue again has no `sending`
job. -/
theorem C9_no_sending_after_cycle (deliver : EmailJob → Bool) (now : Int)
    (q : List EmailJob) (hq : ∀ j ∈ q, j.status ≠ .sending) :
    ∀ j' ∈ processQueue deliver now q, j'.status ≠ .sending := by
  intro j' hj'
  obtain ⟨j, hj, rfl⟩ := mem_processQueue deliver now q j' hj'
  exact processJob_status_ne_sending deliver j (hq j hj)

/-- Witness for C9 at a concrete input: a queue with one pending job and
a succeeding transport; the job ends the cycle as `sent`, not
`sending`. -/
theorem C9_witness :
    ({ demoJob with status := JobStatus.sent } : EmailJob).status ≠
      JobStatus.sending :=
  C9_no_sending_after_cycle (fun _ => true) 0 [demoJob] (by decide)
    { demoJob with status := JobStatus.sent } (by decide)

/-! ## C8 -/

/-- A job whose `timestamp` sits exactly at the 24-hour cutoff of a
prune at time `msPerDay`. -/
def jobAtCutoff : EmailJob :=
  { id := "j0", email := "a@b.com", filename := "f.png",
    filePath := "uploads/f.png", timestamp := 0, status := .sent,
    retryCount := 0 }

/-- C8 fails at the cutoff boundary: a job created exactly 24 hours ago
(`timestamp = now - msPerDay`) is not older than the cutoff, so the
claim says it is left untouched, yet the code's strict `>` keep-filter
removes it. -/
theorem C8_counterexample :
    pruneQueue msPerDay [jobAtCutoff] = [] ∧
    ¬ jobAtCutoff.timestamp < msPerDay - msPerDay := by
  exact ⟨by decide, by decide⟩

/-- C8 amended: the cleanup keeps exactly the jobs whose `timestamp` is
strictly newer than the 24-hour cutoff — equivalently it removes exactly
the jobs aged 24 hours or more, rather than strictly more — and the
kept jobs are carried over unmodified and in order (the result is a
sublist of the input), regardless of any job's status. -/
theorem C8_prune_exact (now : Int) (q : List EmailJob) :
    (∀ j, j ∈ pruneQueue now q ↔ j ∈ q ∧ now - msPerDay < j.timestamp) ∧
    (pruneQueue now q).Sublist q := by
  refine ⟨fun j => ?_, List.filter_sublist q⟩
  unfold pruneQueue
  simp [List.mem_filter]

/-! ## C7 -/

/-- C7: `retry_count` is non-decreasing and terminal jobs are frozen.
Enqueue keeps every existing job unchanged (the old queue is a prefix of
the new one), and every job surviving a worker cycle is the processed
image of a job of the starting queue, with a `retryCount` at least the
old one; a job that was already `sent` or `failed` comes out of the
attempt exactly as it went in, so only the prune step can ever make it
disappear. -/
theorem C7_retry_monotone_terminal_frozen :
    (∀ email filename filePath jobId now q,
      q <+: (queueEmail email filename filePath jobId now q).2) ∧
    (∀ deliver now q j', j' ∈ processQueue deliver now q →
      ∃ j ∈ q, j' = processJob deliver j ∧ j.retryCount ≤ j'.retryCount ∧
        (j.status = .sent ∨ j.status = .failed → j' = j)) := by
  constructor
  · intro email filename filePath jobId now q
    exact List.prefix_append q _
  · intro deliver now q j' h
    obtain ⟨j, hj, rfl⟩ := mem_processQueue deliver now q j' h
    exact ⟨j, hj, rfl, processJob_retryCount_le deliver j,
      fun ht => processJob_terminal deliver j ht⟩

/-- Witness for C7 at a concrete input: one enqueue over an empty queue,
and one failing cycle over a single pending job, whose `retryCount`
rises from 0 to 1. -/
theorem C7_witness :
    ([] : List EmailJob) <+:
      (queueEmail "a@b.com" "f.png" "uploads/f.png" "j1" 0 []).2 ∧
    ∃ j ∈ [demoJob],
      ({ demoJob with retryCount := 1 } : EmailJob) =
          processJob (fun _ => false) j ∧
        j.retryCount ≤
          ({ demoJob with retryCount := 1 } : EmailJob).retryCount ∧
        (j.status = .sent ∨ j.status = .failed →
          ({ demoJob with retryCount := 1 } : EmailJob) = j) :=
  ⟨C7_retry_monotone_terminal_frozen.1 "a@b.com" "f.png" "uploads/f.png"
      "j1" 0 [],
   C7_retry_monotone_terminal_frozen.2 (fun _ => false) 0 [demoJob]
      { demoJob with retryCount := 1 } (by decide)⟩

/-! ## C3 -/

/-- C3: a freshly enqueued job reads back as `pending` with
`retryCount 0`; three consecutive cycles whose transport fails (the
`deliver` oracle is constantly `false`) increment `retryCount` by
exactly one each, passing through `pending` twice and reaching the
terminal `failed` with `retryCount 3` on the third, provided the job is
less than 24 hours old at each cycle (so the prune step keeps it). -/
theorem C3_three_failures_reach_failed (email filename filePath jobId : String)
    (t n1 n2 n3 : Int) (h1 : n1 - msPerDay < t) (h2 : n2 - msPerDay < t)
    (h3 : n3 - msPerDay < t) :
    getJobStatus jobId (queueEmail email filename filePath jobId t []).2 =
      some { id := jobId, email := email, filename := filename,
             filePath := filePath, timestamp := t, status := .pending,
             retryCount := 0 } ∧
    getJobStatus jobId
        (processQueue (fun _ => false) n3
          (processQueue (fun _ => false) n2
            (processQueue (fun _ => false) n1
              (queueEmail email filename filePath jobId t []).2))) =
      some { id := jobId, email := email, filename := filename,
             filePath := filePath, timestamp := t, status := .failed,
             retryCount := 3 } := by
  constructor
  · simp [queueEmail, getJobStatus]
  · simp [queueEmail, processQueue, pruneQueue, processJob, getJobStatus,
      h1, h2, h3]

/-- Witness for C3 at a concrete input: job `j1` for `a@b.com`,
enqueued at time 0 and attempted at time 0 in all three cycles. -/
theorem C3_witness :
    getJobStatus "j1" (queueEmail "a@b.com" "R1" "uploads/R1" "j1" 0 []).2 =
      some { id := "j1", email := "a@b.com", filename := "R1",
             filePath := "uploads/R1", timestamp := 0,
             status := .pending, retryCount := 0 } ∧
    getJobStatus "j1"
        (processQueue (fun _ => false) 0
          (processQueue (fun _ => false) 0
            (processQueue (fun _ => false) 0
              (queueEmail "a@b.com" "R1" "uploads/R1" "j1" 0 []).2))) =
      some { id := "j1", email := "a@b.com", filename := "R1",
             filePath := "uploads/R1", timestamp := 0,
             status := .failed, retryCount := 3 } :=
  C3_three_failures_reach_failed "a@b.com" "R1" "uploads/R1" "j1" 0 0 0 0
    (by decide) (by decide) (by decide)

/-! ## C4 -/

/-- C4: a `POST /api/email/send` request whose email or filename is the
empty string is rejected synchronously with the 400 validation error,
and the job queue comes back exactly as it was: no job is created. -/
theorem C4_empty_input_rejected (email filename : String)
    (fileExists : String → Bool) (jobId : String) (now : Int)
    (q : List EmailJob) (h : email = "" ∨ filename = "") :
    postEmailSend email filename fileExists jobId now q =
      (.error (.validationError "Email and filename are required"), q) := by
  unfold postEmailSend
  rcases h with h | h <;> simp [h]

/-- Witness for C4 at a concrete input: empty email, nonempty filename,
a file that does exist, over a nonempty queue. -/
theorem C4_witness :
    postEmailSend "" "f.png" (fun _ => true) "j2" 5 [demoJob] =
      (.error (.validationError "Email and filename are required"),
       [demoJob]) :=
  C4_empty_input_rejected "" "f.png" (fun _ => true) "j2" 5 [demoJob]
    (Or.inl rfl)

/-! ## C1 -/

/-- C1 as the code behaves: no mutation of `EmailService` ever writes to
stable storage — the storage component of the state is unchanged by
`queueEmail` (the class performs no filesystem write at all) — and in
particular enqueueing from a fresh service with no job file on disk
returns the job id with the new job only in the in-memory queue and the
disk still holding nothing. -/
theorem C1_enqueue_writes_nothing_to_storage :
    (∀ email filename filePath jobId now state,
      (queueEmailFS email filename filePath jobId now state).2.2 = state.2) ∧
    queueEmailFS "a@b.com" "f.png" "uploads/f.png" "j1" 1704067200000
        ([], none) =
      ("j1",
       ([{ id := "j1", email := "a@b.com", filename := "f.png",
           filePath := "uploads/f.png", timestamp := 1704067200000,
           status := .pending, retryCount := 0 }], none)) := by
  exact ⟨fun _ _ _ _ _ _ => rfl, rfl⟩

/-! ## C2 -/

/-- A job-store snapshot entry stuck `in_progress`, as C2's scenario
persists it. -/
def stuckJob : EmailJob :=
  { id := "j1", email := "a@b.com", filename := "f.png",
    filePath := "uploads/f.png", timestamp := 0, status := .sending,
    retryCount := 1 }

/-- C2 as the code behaves: the `EmailService` constructor starts from
an empty in-memory queue and reads nothing from any persisted snapshot,
so after a restart over a snapshot holding an `in_progress` job and one
worker cycle the job is not `pending` — it is gone entirely
(`getJobStatus` answers `none`). -/
theorem C2_restart_discards_all_jobs :
    restartService [stuckJob] = [] ∧
    getJobStatus "j1"
        (processQueue (fun _ => true) 0 (restartService [stuckJob])) =
      none := by
  exact ⟨rfl, rfl⟩

/-! ## Decimal representation: `Nat.repr` is injective

The alias strings of the registry are `"H" ++ toString n`; telling two
aliases apart needs injectivity of the decimal printer, proven here with
a decoding function. -/

/-- Reads a list of decimal digit characters back as a number. -/
def decodeDigits (l : List Char) : Nat :=
  l.foldl (fun a c => 10 * a + (c.toNat - 48)) 0

theorem toDigitsCore_append (b : Nat) :
    ∀ (fuel n : Nat) (ds : List Char),
      Nat.toDigitsCore b fuel n ds = Nat.toDigitsCore b fuel n [] ++ ds := by
  intro fuel
  induction fuel with
  | zero => intro n ds; rfl
  | succ fuel ih =>
    intro n ds
    simp only [Nat.toDigitsCore]
    by_cases h : n / b = 0
    · simp [h]
    · simp only [h, if_false]
      rw [ih (n / b) (Nat.digitChar (n % b) :: ds),
          ih (n / b) [Nat.digitChar (n % b)]]
      simp

theorem digitChar_decode (m : Nat) (h : m < 10) :
    (Nat.digitChar m).toNat - 48 = m := by
  interval_cases m <;> rfl

theorem decode_toDigitsCore :
    ∀ (fuel n : Nat), n < 10 ^ fuel →
      decodeDigits (Nat.toDigitsCore 10 fuel n []) = n := by
  intro fuel
  induction fuel with
  | zero =>
    intro n h
    interval_cases n
    rfl
  | succ fuel ih =>
    intro n h
    have hm : n % 10 < 10 := Nat.mod_lt n (by norm_num)
    simp only [Nat.toDigitsCore]
    by_cases h0 : n / 10 = 0
    · have hn : n % 10 = n := by
        conv_rhs => rw [← Nat.div_add_mod n 10]
        simp [h0]
      have hn10 : n < 10 := hn ▸ hm
      simp only [h0, if_true, decodeDigits, List.foldl]
      rw [hn]
      simpa using digitChar_decode n hn10
    · simp only [h0, if_false]
      have hdiv : n / 10 < 10 ^ fuel := by
        rw [Nat.div_lt_iff_lt_mul (by norm_num : 0 < 10)]
        calc n < 10 ^ (fuel + 1) := h
          _ = 10 ^ fuel * 10 := by ring
      calc decodeDigits (Nat.toDigitsCore 10 fuel (n / 10)
              [Nat.digitChar (n % 10)])
          = decodeDigits (Nat.toDigitsCore 10 fuel (n / 10) [] ++
              [Nat.digitChar (n % 10)]) := by rw [← toDigitsCore_append]
        _ = 10 * decodeDigits (Nat.toDigitsCore 10 fuel (n / 10) []) +
              ((Nat.digitChar (n % 10)).toNat - 48) := by
            simp [decodeDigits, List.foldl_append]
        _ = 10 * (n / 10) + n % 10 := by
            rw [ih (n / 10) hdiv, digitChar_decode _ hm]
        _ = n := Nat.div_add_mod n 10

theorem toDigits_ten_inj (m n : Nat)
    (h : Nat.toDigits 10 m = Nat.toDigits 10 n) : m = n := by
  have hm : m < 10 ^ (m + 1) :=
    lt_of_lt_of_le (Nat.lt_pow_self (by norm_num) m)
      (Nat.pow_le_pow_right (by norm_num) (Nat.le_succ m))
  have hn : n < 10 ^ (n + 1) :=
    lt_of_lt_of_le (Nat.lt_pow_self (by norm_num) n)
      (Nat.pow_le_pow_right (by norm_num) (Nat.le_succ n))
  have h1 := decode_toDigitsCore (m + 1) m hm
  have h2 := decode_toDigitsCore (n + 1) n hn
  unfold Nat.toDigits at h
  rw [h] at h1
  rw [h1] at h2
  exact h2

theorem aliasString_inj (m n : Nat)
    (h : "H" ++ toString m = "H" ++ toString n) : m = n := by
  have hdata : ('H' : Char) :: Nat.toDigits 10 m =
      ('H' : Char) :: Nat.toDigits 10 n := congrArg String.data h
  have hlist : Nat.toDigits 10 m = Nat.toDigits 10 n := by
    injection hdata
  exact toDigits_ten_inj m n hlist

/-! ## Registry invariant -/

/-- Well-formedness of a registry state reachable from
`freshRegistry`: the counter is one past the number of entries, and the
entry at position `i` (0-based) carries the alias `H(i+1)` — the Nth
registered address holds the Nth alias of the fixed sequence. -/
def RegistryWF (r : OriginRegistry) : Prop :=
  r.nextAliasIndex = r.originAliases.length + 1 ∧
  ∀ i (h : i < r.originAliases.length),
    (r.originAliases[i]).2 = "H" ++ toString (i + 1)

theorem registryWF_fresh : RegistryWF freshRegistry := by
  refine ⟨rfl, fun i h => absurd h ?_⟩
  simp [freshRegistry]

theorem registryWF_step (ip : String) (r : OriginRegistry)
    (h : RegistryWF r) : RegistryWF (getOriginAlias ip r).2 := by
  unfold getOriginAlias
  cases hf : r.originAliases.find? (fun e => e.1 = ip) with
  | some e => simpa using h
  | none =>
    simp only
    constructor
    · simp [h.1]
    · intro i hi
      simp only [List.length_append, List.length_cons, List.length_nil] at hi
      rcases Nat.lt_succ_iff_lt_or_eq.mp hi with hlt | heq
      · rw [List.getElem_append_left hlt]
        exact h.2 i hlt
      · subst heq
        rw [List.getElem_concat_length _ _ _ rfl]
        rw [h.1]

theorem registryWF_foldl :
    ∀ (ips : List String) (r : OriginRegistry), RegistryWF r →
      RegistryWF (ips.foldl (fun r ip => (getOriginAlias ip r).2) r) := by
  intro ips
  induction ips with
  | nil => intro r h; exact h
  | cons ip ips ih =>
    intro r h
    exact ih _ (registryWF_step ip r h)

theorem registryWF_registerAll (ips : List String) :
    RegistryWF (registerAll ips) :=
  registryWF_foldl ips freshRegistry registryWF_fresh

/-- Keys of the registry, after a run from fresh state, are exactly the
distinct addresses in first-occurrence order. -/
theorem registry_keys_foldl :
    ∀ (ips : List String) (r : OriginRegistry),
      ((ips.foldl (fun r ip => (getOriginAlias ip r).2) r).originAliases.map
          Prod.fst) =
        ips.foldl (fun seen ip => if ip ∈ seen then seen else seen ++ [ip])
          (r.originAliases.map Prod.fst) := by
  intro ips
  induction ips with
  | nil => intro r; rfl
  | cons ip ips ih =>
    intro r
    rw [List.foldl_cons, List.foldl_cons, ih]
    congr 1
    unfold getOriginAlias
    cases hf : r.originAliases.find? (fun e => e.1 = ip) with
    | some e =>
      have hm : ip ∈ r.originAliases.map Prod.fst := by
        have h1 := List.find?_some hf
        have h2 := List.mem_of_find?_eq_some hf
        refine List.mem_map.mpr ⟨e, h2, ?_⟩
        simpa using h1
      simp [hm]
    | none =>
      have hm : ip ∉ r.originAliases.map Prod.fst := by
        intro hmem
        obtain ⟨e, he, hfst⟩ := List.mem_map.mp hmem
        have := List.find?_eq_none.mp hf e he
        simp [hfst] at this
      simp [hm]

/-! ## C5 -/

/-- C5: alias resolution is idempotent — resolving an address a second
time returns the same alias and leaves the registry untouched — and
injective: in any registry built by a sequence of resolutions from fresh
state, two distinct addresses never hold the same alias. -/
theorem C5_resolve_idempotent_and_injective :
    (∀ ip r, getOriginAlias ip (getOriginAlias ip r).2 =
      ((getOriginAlias ip r).1, (getOriginAlias ip r).2)) ∧
    (∀ ips ipa ipb aliasA aliasB,
      (ipa, aliasA) ∈ (registerAll ips).originAliases →
      (ipb, aliasB) ∈ (registerAll ips).originAliases →
      ipa ≠ ipb → aliasA ≠ aliasB) := by
  constructor
  · intro ip r
    unfold getOriginAlias
    cases hf : r.originAliases.find? (fun e => e.1 = ip) with
    | some e => simp [hf]
    | none =>
      simp only [hf]
      have hsnd : (r.originAliases ++
          [(ip, "H" ++ toString r.nextAliasIndex)]).find?
            (fun e => e.1 = ip) =
          some (ip, "H" ++ toString r.nextAliasIndex) := by
        rw [List.find?_append, hf]
        simp
      simp [hsnd]
  · intro ips ipa ipb aliasA aliasB ha hb hne hEq
    obtain ⟨i, hi, hia⟩ := List.mem_iff_getElem.mp ha
    obtain ⟨j, hj, hjb⟩ := List.mem_iff_getElem.mp hb
    have hwf := registryWF_registerAll ips
    have hA := hwf.2 i hi
    have hB := hwf.2 j hj
    rw [hia] at hA
    rw [hjb] at hB
    have hA2 : aliasA = "H" ++ toString (i + 1) := hA
    have hB2 : aliasB = "H" ++ toString (j + 1) := hB
    have hij : i = j := by
      have hs : "H" ++ toString (i + 1) = "H" ++ toString (j + 1) := by
        rw [← hA2, ← hB2, hEq]
      exact Nat.succ_injective (aliasString_inj (i + 1) (j + 1) hs)
    subst hij
    exact hne (congrArg Prod.fst (hia.symm.trans hjb))

/-- Witness for C5 at concrete inputs: resolving `10.0.0.5` twice from a
fresh registry is a no-op the second time, and in the registry built
from `[10.0.0.5, 10.0.0.6]` the two addresses hold the distinct aliases
`H1` and `H2`. -/
theorem C5_witness :
    (getOriginAlias "10.0.0.5"
        (getOriginAlias "10.0.0.5" freshRegistry).2 =
      ((getOriginAlias "10.0.0.5" freshRegistry).1,
       (getOriginAlias "10.0.0.5" freshRegistry).2)) ∧
    ("H1" : String) ≠ "H2" :=
  ⟨C5_resolve_idempotent_and_injective.1 "10.0.0.5" freshRegistry,
   C5_resolve_idempotent_and_injective.2 ["10.0.0.5", "10.0.0.6"]
     "10.0.0.5" "10.0.0.6" "H1" "H2" (by decide) (by decide) (by decide)⟩

/-! ## C6 -/

/-- C6: alias assignment is a pure function of registration order — for
any request sequence from fresh state, the registered addresses are the
distinct addresses in first-occurrence order, and the Nth of them
(position `i = N - 1`) holds the Nth alias `"H" ++ toString N` of the
fixed naming sequence (`H1`, `H2`, ...). -/
theorem C6_nth_distinct_gets_nth_alias (ips : List String) :
    (registerAll ips).originAliases.map Prod.fst = firstOccurrences ips ∧
    ∀ i (h : i < (registerAll ips).originAliases.length),
      ((registerAll ips).originAliases[i]).2 = "H" ++ toString (i + 1) := by
  refine ⟨?_, (registryWF_registerAll ips).2⟩
  unfold registerAll firstOccurrences
  rw [registry_keys_foldl]
  rfl

/-- Witness for C6 at a concrete input: after the request sequence
`[10.0.0.5, 10.0.0.5, 10.0.0.6]` the distinct addresses in order are
`[10.0.0.5, 10.0.0.6]` and the second of them holds `H2`. -/
theorem C6_witness :
    ((registerAll ["10.0.0.5", "10.0.0.5", "10.0.0.6"]).originAliases.map
        Prod.fst =
      firstOccurrences ["10.0.0.5", "10.0.0.5", "10.0.0.6"]) ∧
    ((registerAll ["10.0.0.5", "10.0.0.5", "10.0.0.6"]).originAliases.get
        ⟨1, by decide⟩).2 = "H" ++ toString 2 :=
  ⟨(C6_nth_distinct_gets_nth_alias ["10.0.0.5", "10.0.0.5", "10.0.0.6"]).1,
   (C6_nth_distinct_gets_nth_alias ["10.0.0.5", "10.0.0.5", "10.0.0.6"]).2
     1 (by decide)⟩
